import Mathlib

/-!
Verification of the photo-dash layout and composition engine.

This file gives a shallow embedding, in Lean, of the code in
src/photo_dash/image.py (the capacity check, the text renderer, the gauge
renderer and the composition driver `DashImage.create`), together with
theorems settling the frozen claims about that code.

Modelling conventions:
* Python integers are `Int`; Python floor division `//` is `Int.fdiv`.
* Python exceptions (`KeyError`, `NameError`, `ZeroDivisionError`,
  `IndexError`, `TooManySections`) are an `Except Err` result; exceptions
  that the source catches locally are handled inside the model exactly where
  the source catches them.
* PIL drawing is not rasterised: the source itself builds explicit
  instruction lists (tuples of command, coordinates, text, kwargs) and only
  replays them against PIL at the very end, so instructions are modelled as
  an inductive `Instr` and a render is the produced instruction list.
* `textwrap.wrap` (used with its default options) is modelled by a greedy
  word-wrapping function over space-separated words, including the
  break-long-words behaviour; logging calls are ignored.
* Configuration values loaded from config.json (canvas width and height) are
  a `Config` parameter.  `GAUGE_WIDTH = int(0.9 * WIDTH)` and
  `GAUGE_OFFSET = int(0.05 * WIDTH)` involve float truncation, so they are
  carried as explicit fields of `Config`; at the default width 480 they are
  432 and 24.
-/

namespace PhotoDash

/-- SPACER from image.py: fixed padding between rows of elements (10). -/
def SPACER : Int := 10

/-- V_SPACER from image.py: small vertical spacer (5). -/
def V_SPACER : Int := 5

/-- H_SPACER from image.py: small horizontal spacer (5). -/
def H_SPACER : Int := 5

/-- TEXT_COLOR from image.py: default text color. -/
def TEXT_COLOR : String := "#FFFFFF"

/-- TITLE_SIZE from image.py: font size of the title (20). -/
def TITLE_SIZE : Int := 20

/-- SECTION_SIZE from image.py: font size for sections (16). -/
def SECTION_SIZE : Int := 16

/-- FOOTER_SIZE from image.py: font size of the footer (10). -/
def FOOTER_SIZE : Int := 10

/-- SECTION_CHAR from image.py: `int(16 * 10 / 16)` = 10, the monospace glyph
width for SECTION_SIZE text. -/
def SECTION_CHAR : Nat := 10

/-- GAUGE_VALUE_STROKE from image.py (2). -/
def GAUGE_VALUE_STROKE : Nat := 2

/-- GAUGE_LINE_WIDTH from image.py (5). -/
def GAUGE_LINE_WIDTH : Nat := 5

/-- GAUGE_LINE_COLOR from image.py. -/
def GAUGE_LINE_COLOR : String := "#808080"

/-- Configuration loaded from config.json by photo_dash.config, plus the two
derived gauge constants of image.py.  `gaugeWidth` stands for
`GAUGE_WIDTH = int(0.9 * WIDTH)` and `gaugeOffset` for
`GAUGE_OFFSET = int(0.05 * WIDTH)`; the float truncation is not modelled, so
they are explicit fields, equal to 432 and 24 at the default width 480. -/
structure Config where
  width : Nat
  length : Nat
  gaugeWidth : Nat
  gaugeOffset : Nat
deriving DecidableEq

/-- Default configuration: canvas 480 x 234, gauge constants 432 and 24. -/
def cfg480 : Config := ⟨480, 234, 432, 24⟩

/-- MAX_C_PER_LINE from image.py:
`config.WIDTH // SECTION_CHAR - ceil(2 * H_SPACER / SECTION_CHAR)`;
since `ceil(2 * 5 / 10) = 1` this is `width / 10 - 1`. -/
def MAX_C_PER_LINE (cfg : Config) : Nat := cfg.width / SECTION_CHAR - 1

/-- Fonts of image.py (TITLE_FONT, SECTION_FONT, FOOTER_FONT), identified by
their role; all use the same monospace font file. -/
inductive Font
  | title
  | sectionF
  | footer
deriving DecidableEq

/-- Size of each font, as configured in image.py. -/
def Font.size : Font → Int
  | .title => TITLE_SIZE
  | .sectionF => SECTION_SIZE
  | .footer => FOOTER_SIZE

/-- Render instruction, mirroring the tuples the source appends to
`self.instructions`: a draw command, its coordinates, optional text and the
kwargs that vary (fill, font, anchor, stroke width, line width).  Constant
kwargs (the stroke fill GAUGE_LINE_COLOR) are determined by `strokeWidth`. -/
inductive Instr
  | text (pos : Int × Int) (content : String) (fill : String) (font : Font)
      (anchor : Option String) (strokeWidth : Nat)
  | rectangle (c0 c1 : Int × Int) (fill : String)
  | line (c0 c1 : Int × Int) (fill : String) (lineWidth : Nat)
deriving DecidableEq

/-! ## The text wrapper

`textwrap.wrap(text, width)` with its default options, modelled for texts
whose words are separated by single spaces: split into words, then greedily
fill lines; a word longer than the width is broken, first filling the
remaining space of the current line (textwrap's `_handle_long_word` with
`break_long_words=True`).  Python raises ValueError for width <= 0; the
model clamps the break size to 1 there, and every theorem that depends on
wrapping assumes a positive width. -/

/-- Words of a character list: split on the space character, dropping empty
pieces (`cur` holds the current word reversed). -/
def splitChars : List Char → List Char → List (List Char)
  | [], cur => if cur.isEmpty then [] else [cur.reverse]
  | c :: rest, cur =>
    if c = ' ' then
      if cur.isEmpty then splitChars rest []
      else cur.reverse :: splitChars rest []
    else splitChars rest (c :: cur)

/-- Greedy line filling over a word list, with fuel for termination.  `cur`
is the line being filled (empty means no pending line). -/
def wrapGo (width : Nat) : Nat → List Char → List (List Char) → List (List Char)
  | 0, _, _ => []
  | _ + 1, cur, [] => if cur.isEmpty then [] else [cur]
  | fuel + 1, cur, w :: rest =>
    if cur.isEmpty then
      if w.length ≤ width then wrapGo width fuel w rest
      else (w.take (max width 1)) :: wrapGo width fuel [] ((w.drop (max width 1)) :: rest)
    else
      if cur.length + 1 + w.length ≤ width then wrapGo width fuel (cur ++ [' '] ++ w) rest
      else if w.length ≤ width then cur :: wrapGo width fuel [] (w :: rest)
      else
        let sL := max (width - (cur.length + 1)) 1
        (cur ++ [' '] ++ w.take sL) :: wrapGo width fuel [] ((w.drop sL) :: rest)

/-- Model of `textwrap.wrap text width`.  The fuel bound is generous: each
step either consumes a word, shortens a long word, or flushes a pending line
right before consuming. -/
def wrap (s : String) (width : Nat) : List String :=
  let ws := splitChars s.toList []
  (wrapGo width (2 * (s.toList.length + ws.length) + 2) [] ws).map
    (fun l => String.mk l)

/-! ## Gauge primitives -/

/-- Number of decimal digits of m, with fuel for structural recursion (the
fuel m is always enough since m / 10 < m for m >= 10). -/
def numDigitsAux : Nat → Nat → Nat
  | 0, _ => 1
  | fuel + 1, m => if m < 10 then 1 else numDigitsAux fuel (m / 10) + 1

/-- Number of decimal digits of m: `floor(log10 m) + 1` for m >= 1. -/
def numDigits (m : Nat) : Nat := numDigitsAux m m

/-- get_number_half_width from image.py, at integer inputs (gauge marks and
values are numbers; all claims use integers, for which
`number != int(number)` is false and `abs` drops the sign into one extra
symbol).  `digits = floor(log10 number) + 1` for `number >= 1` — the digit
count of the integer — else 1;
result `ceil((digits + symbols) * SECTION_CHAR / 2)`. -/
def get_number_half_width (n : Int) : Int :=
  let symbols : Nat := if n < 0 then 1 else 0
  let m := n.natAbs
  let digits : Nat := if 1 ≤ m then numDigits m else 1
  (((digits + symbols) * SECTION_CHAR + 1) / 2 : Nat)

/-- get_gauge_offset from image.py:
`(value - end_a) * GAUGE_WIDTH // length + GAUGE_OFFSET` with
`length = end_b - end_a`; Python `//` is floor division, `Int.fdiv`. -/
def get_gauge_offset (GW GO : Nat) (value end_a end_b : Int) : Int :=
  Int.fdiv ((value - end_a) * GW) (end_b - end_a) + GO

/-- Endpoints used by SectionGauge.__post_init__:
`sort_values = sorted(self.values)`, `end_a = sort_values[0]`,
`end_b = sort_values[-1]` (defaulting 0 on the empty list, where the source
raises IndexError before this pair is ever used). -/
def gaugeEndpoints (values : List Int) : Int × Int :=
  let s := List.insertionSort (· ≤ ·) values
  (s.headD 0, s.getLastD 0)

/-- does_gauge_text_collide from image.py: the new label at `offset` collides
with the most recently placed label when its left edge passes the previous
label's right edge. -/
def does_gauge_text_collide (value offset last_value last_offset : Int) : Bool :=
  decide (offset - get_number_half_width value <
    last_offset + get_number_half_width last_value)

/-- Python dict assignment `d[k] = v` on an insertion-ordered dict modelled
as an association list: an existing key keeps its position, a new key is
appended. -/
def dictInsert (l : List (Int × Int)) (k v : Int) : List (Int × Int) :=
  if l.any (fun p => p.1 == k) then
    l.map (fun p => if p.1 == k then (k, v) else p)
  else l ++ [(k, v)]

/-- Errors of the engine.  `keyError` and `unknownType` are Python KeyError
(the latter raised by the `SECTION_SPACING[section['type']]` lookup in
sections_fit), `zeroDivision` is ZeroDivisionError, `indexError` is
IndexError, `typeMismatch` stands for the TypeError/AttributeError a
wrongly-typed field raises, and `tooManySections` is the TooManySections
error of image.py carrying the section count. -/
inductive Err
  | keyError (k : String)
  | unknownType
  | typeMismatch
  | zeroDivision
  | indexError
  | tooManySections (n : Nat)
deriving DecidableEq

/-- does_gauge_value_collide from image.py.  A value already placed as a mark
collides.  Otherwise the placed keys plus the value are sorted; `below` is
`values[index - 1]` (Python negative indexing wraps to the last element when
index is 0) and `above` is `values[index + 1]`, raising IndexError past the
end.  The value collides when its box meets `below`'s box or `above`'s
box. -/
def does_gauge_value_collide (placed : List (Int × Int)) (value offset : Int) :
    Except Err Bool :=
  if (placed.map Prod.fst).contains value then .ok true
  else
    let values := List.insertionSort (· ≤ ·) ((placed.map Prod.fst) ++ [value])
    let index := values.indexOf value
    let below := if index = 0 then values.getLastD 0 else values.getD (index - 1) 0
    match values.get? (index + 1) with
    | none => .error .indexError
    | some above =>
      let width := get_number_half_width value
      if offset - width < ((placed.lookup below).getD 0) + get_number_half_width below then
        .ok true
      else if ((placed.lookup above).getD 0) - get_number_half_width above < offset + width then
        .ok true
      else .ok false

/-- State threaded through the mark loop of SectionGauge.__post_init__:
the instruction list, `last_gauge_value`/`last_gauge_offset` (None until the
first placement), `created_gauge_values`, and `last_x0`. -/
structure GaugeState where
  instrs : List Instr
  lastPlaced : Option (Int × Int)
  placed : List (Int × Int)
  lastX : Int
deriving DecidableEq

/-- One iteration of the `for val, color in zip(self.values, self.colors)`
loop of SectionGauge.__post_init__: compute the mark's offset; place its
label when nothing was placed yet or it does not collide with the most
recently placed label; always draw the bar segment from `last_x0` to the
offset. -/
def gaugeStep (GW GO : Nat) (end_a end_b ylab y0 y1 : Int) (st : GaugeState)
    (vc : Int × String) : GaugeState :=
  let offset := get_gauge_offset GW GO vc.1 end_a end_b
  let doPlace :=
    match st.lastPlaced with
    | none => true
    | some p => ! does_gauge_text_collide vc.1 offset p.1 p.2
  let labelInstrs : List Instr :=
    if doPlace then [.text (offset, ylab) (toString vc.1) vc.2 .sectionF (some "mt") 0]
    else []
  { instrs := st.instrs ++ labelInstrs ++ [.rectangle (st.lastX, y0) (offset, y1) vc.2],
    lastPlaced := if doPlace then some (vc.1, offset) else st.lastPlaced,
    placed := if doPlace then dictInsert st.placed vc.1 offset else st.placed,
    lastX := offset }

/-- The whole mark loop, starting from the empty state with
`last_x0 = x0`. -/
def gaugeLoop (GW GO : Nat) (end_a end_b ylab y0 y1 : Int)
    (pairs : List (Int × String)) (x0 : Int) : GaugeState :=
  pairs.foldl (gaugeStep GW GO end_a end_b ylab y0 y1)
    { instrs := [], lastPlaced := none, placed := [], lastX := x0 }

/-- The mark loop of a gauge starting at cursor `y`: the bar rows run from
`y0 = y + SECTION_FONT.size + SPACER` to `y1 = y0 + SECTION_FONT.size`,
labels sit at `y`, the walk pairs the original-order marks with
`TEXT_COLOR` prepended to the colors, and `last_x0` starts at
GAUGE_OFFSET. -/
def gaugeLoopState (GW GO : Nat) (y : Int) (values : List Int)
    (colors : List String) : GaugeState :=
  let ends := gaugeEndpoints values
  let y0 := y + SECTION_SIZE + SPACER
  gaugeLoop GW GO ends.1 ends.2 y y0 (y0 + SECTION_SIZE)
    (values.zip (TEXT_COLOR :: colors)) GO

/-- Offset of the gauge value's needle:
`get_gauge_offset(self.value, end_a, end_b)`. -/
def needleOffset (GW GO : Nat) (value : Int) (values : List Int) : Int :=
  get_gauge_offset GW GO value (gaugeEndpoints values).1 (gaugeEndpoints values).2

/-- The value label instruction of a gauge (drawn only when it does not
collide): text at `(offset, self.y)`, anchored `mt`, with the
GAUGE_VALUE_STROKE stroke. -/
def valueLabelInstr (y value offset : Int) : Instr :=
  .text (offset, y) (toString value) TEXT_COLOR .sectionF (some "mt") GAUGE_VALUE_STROKE

/-- The needle line instruction of a gauge (always drawn): a vertical
GAUGE_LINE_COLOR line across the bar rows at the needle offset. -/
def needleInstr (y offset : Int) : Instr :=
  .line (offset, y + SECTION_SIZE + SPACER)
    (offset, y + SECTION_SIZE + SPACER + SECTION_SIZE)
    GAUGE_LINE_COLOR GAUGE_LINE_WIDTH

/-- SectionGauge rendering (SectionGauge.__post_init__): sort the marks for
the endpoints, prepend TEXT_COLOR to the colors (mutating the caller's
list), raise IndexError on an empty mark list (`sort_values[0]`) and
ZeroDivisionError when the endpoints coincide (the first `get_gauge_offset`
call divides by `length = 0` before anything is drawn); then run the mark
loop, compute the needle offset, draw the value label unless it collides,
always draw the needle line, and advance y by
`2 * SECTION_FONT.size + SPACER` plus the SPACER of `_next_y`.  Returns the
instructions, the new y, and the mutated color list. -/
def gaugeRender (GW GO : Nat) (y : Int) (value : Int) (values : List Int)
    (colors : List String) : Except Err (List Instr × Int × List String) :=
  match values with
  | [] => .error .indexError
  | _ :: _ =>
    let ends := gaugeEndpoints values
    if ends.2 - ends.1 = 0 then .error .zeroDivision
    else
      let st := gaugeLoopState GW GO y values colors
      let offset := needleOffset GW GO value values
      match does_gauge_value_collide st.placed value offset with
      | .error e => .error e
      | .ok c =>
        .ok (st.instrs ++ (if c then [] else [valueLabelInstr y value offset]) ++
              [needleInstr y offset],
             y + 2 * SECTION_SIZE + SPACER + SPACER, TEXT_COLOR :: colors)

/-! ## Sections as the endpoint delivers them

Sections arrive as JSON mappings.  A mapping is an association list of keys
and JSON values (string, number, list of numbers, list of strings — the
shapes photo-dash uses). -/

/-- JSON value shapes a section field can hold. -/
inductive JVal
  | str (s : String)
  | int (n : Int)
  | intList (l : List Int)
  | strList (l : List String)
deriving DecidableEq

/-- A raw section mapping, as handed to DashImage. -/
abbrev RawSection := List (String × JVal)

/-- Projection to a string, `none` on any other shape. -/
def JVal.asStr : JVal → Option String
  | .str s => some s
  | _ => none

/-- Projection to an integer, `none` on any other shape. -/
def JVal.asInt : JVal → Option Int
  | .int n => some n
  | _ => none

/-- Projection to a list of integers, `none` on any other shape. -/
def JVal.asIntList : JVal → Option (List Int)
  | .intList l => some l
  | _ => none

/-- Projection to a list of strings, `none` on any other shape. -/
def JVal.asStrList : JVal → Option (List String)
  | .strList l => some l
  | _ => none

/-! ## The capacity check -/

/-- One iteration of the loop of DashImage.sections_fit: a text section adds
`len(wrap(section['value'], MAX_C_PER_LINE)) * SECTION_SPACING['text']`
(one unit per wrapped line), any other section adds
`SECTION_SPACING[section['type']]` — 2 for a gauge, an uncaught KeyError for
any other type; every section then adds one SPACER.  A missing `type`, or a
missing `value` on a text section, is an uncaught KeyError; a non-string
text value is an uncaught TypeError inside `wrap`. -/
def sectionSpace (cfg : Config) (acc : Int) (sec : RawSection) : Except Err Int :=
  match sec.lookup "type" with
  | none => .error (.keyError "type")
  | some t =>
    if t = .str "text" then
      match sec.lookup "value" with
      | none => .error (.keyError "value")
      | some v =>
        match v.asStr with
        | none => .error .typeMismatch
        | some s => .ok (acc + ((wrap s (MAX_C_PER_LINE cfg)).length : Int) * 1 + SPACER)
    else if t = .str "gauge" then .ok (acc + 2 + SPACER)
    else .error .unknownType

/-- free_space of DashImage.sections_fit:
`LENGTH - (TITLE_SIZE + SPACER) - (FOOTER_SIZE + 2 * SPACER) - 2 * V_SPACER`. -/
def free_space (cfg : Config) : Int :=
  (cfg.length : Int) - (TITLE_SIZE + SPACER) - (FOOTER_SIZE + 2 * SPACER) - 2 * V_SPACER

/-- DashImage.sections_fit: accumulate the space of every section, drop the
trailing SPACER, and return `free_space > space`. -/
def sections_fit (cfg : Config) (sections : List RawSection) : Except Err Bool := do
  let space ← sections.foldlM (sectionSpace cfg) 0
  .ok (decide (free_space cfg > space - SPACER))

/-! ## Text sections and the footer -/

/-- SectionText.__post_init__: a title gets one extra V_SPACER first; then
one text instruction per wrapped line at `(H_SPACER, y)`, advancing y by the
font size plus SPACER (`_next_y`) after each.  Returns the instructions and
the final y. -/
def sectionText (cfg : Config) (y : Int) (text color : String) (font : Font) :
    List Instr × Int :=
  let yStart := if font = .title then y + V_SPACER else y
  (wrap text (MAX_C_PER_LINE cfg)).foldl
    (fun acc line =>
      (acc.1 ++ [.text (H_SPACER, acc.2) line color font none 0],
       acc.2 + font.size + SPACER))
    ([], yStart)

/-- SectionFooter.__post_init__: one text instruction anchored (`rs`) at the
bottom-right corner, containing the generation timestamp (`pendulum.now()`
is the parameter `now`). -/
def sectionFooter (cfg : Config) (now : String) : List Instr :=
  [.text ((cfg.width : Int) - H_SPACER, (cfg.length : Int) - V_SPACER)
    ("Generated at: " ++ now) TEXT_COLOR .footer (some "rs") 0]

/-! ## The composition driver -/

/-- State of the section loop in DashImage.create: the instructions rendered
so far, the cursor `self.y`, the loop-local Python variables
`instructions`/`y` which persist across iterations once bound (`none` while
still unbound, when reading them raises the NameError the loop catches),
and the sections as mutated so far (a gauge prepends to its color list). -/
structure LoopState where
  instrs : List Instr
  y : Int
  prev : Option (List Instr × Int)
  out : List RawSection
deriving DecidableEq

/-- Skipping a section (a caught KeyError or NameError in the loop of
DashImage.create): state unchanged but for recording the section
unmodified. -/
def skipSection (st : LoopState) (sec : RawSection) : LoopState :=
  { st with out := st.out ++ [sec] }

/-- Effect of `self.colors.insert(0, TEXT_COLOR)` on the section mapping the
list was taken from: the `color` key now holds the extended list. -/
def setColor (sec : RawSection) (cs : List String) : RawSection :=
  sec.map (fun p => if p.1 = "color" then ("color", JVal.strList cs) else p)

/-- One iteration of the section loop of DashImage.create.  The source reads
`section['type']`, `section['value']`, `section['color']` in that order —
a missing key is a KeyError, caught and skipped.  A text section renders via
SectionText at the cursor.  A gauge section additionally reads
`section['range']` (missing: caught KeyError) and renders via SectionGauge,
whose ZeroDivisionError or IndexError is NOT caught and aborts the render.
Any other type falls through both branches and replays the loop variables
`instructions`/`y` of the previous successful iteration — or raises the
caught NameError when none exists yet. -/
def createStep (cfg : Config) (st : LoopState) (sec : RawSection) :
    Except Err LoopState :=
  match sec.lookup "type" with
  | none => .ok (skipSection st sec)
  | some t =>
    match sec.lookup "value" with
    | none => .ok (skipSection st sec)
    | some v =>
      match sec.lookup "color" with
      | none => .ok (skipSection st sec)
      | some c =>
        if t = .str "text" then
          match v.asStr, c.asStr with
          | some s, some col =>
            let r := sectionText cfg st.y s col .sectionF
            .ok { instrs := st.instrs ++ r.1, y := r.2, prev := some r,
                  out := st.out ++ [sec] }
          | _, _ => .error .typeMismatch
        else if t = .str "gauge" then
          match sec.lookup "range" with
          | none => .ok (skipSection st sec)
          | some r =>
            match r.asIntList, c.asStrList, v.asInt with
            | some range, some colors, some value =>
              match gaugeRender cfg.gaugeWidth cfg.gaugeOffset st.y value range colors with
              | .error e => .error e
              | .ok g =>
                .ok { instrs := st.instrs ++ g.1, y := g.2.1, prev := some (g.1, g.2.1),
                      out := st.out ++ [setColor sec g.2.2] }
            | _, _, _ => .error .typeMismatch
        else
          match st.prev with
          | none => .ok (skipSection st sec)
          | some p =>
            .ok { instrs := st.instrs ++ p.1, y := p.2, prev := st.prev,
                  out := st.out ++ [sec] }

/-- DashImage.create: run sections_fit first (its uncaught errors propagate);
raise TooManySections with the section count when the sections do not fit,
before anything is drawn; otherwise render the title (SectionText with
TITLE_FONT at y = 0), loop over the sections, and append the footer.
Returns the full instruction list and the sections as left after the call
(`now` stands for the timestamp `pendulum.now()` of the footer; the module
name only names the output file). -/
def createModel (cfg : Config) (now module title : String)
    (sections : List RawSection) : Except Err (List Instr × List RawSection) := do
  let fit ← sections_fit cfg sections
  if ! fit then .error (.tooManySections sections.length)
  else
    let header := sectionText cfg 0 title TEXT_COLOR .title
    let final ← sections.foldlM (createStep cfg)
      { instrs := header.1, y := header.2, prev := none, out := [] }
    .ok (final.instrs ++ sectionFooter cfg now, final.out)

/-! ## Well-typed sections

The spec's Section model: a tagged union of text and gauge sections with
their required fields.  `toRaw` is the mapping such a section arrives as. -/

/-- Tagged section of the spec's data model. -/
inductive TypedSection
  | text (color : String) (value : String)
  | gauge (colors : List String) (value : Int) (range : List Int)
deriving DecidableEq

/-- The raw mapping carrying a typed section. -/
def TypedSection.toRaw : TypedSection → RawSection
  | .text c v => [("type", .str "text"), ("color", .str c), ("value", .str v)]
  | .gauge cs v r =>
      [("type", .str "gauge"), ("color", .strList cs), ("value", .int v),
       ("range", .intList r)]

/-- Modelled from the spec wording of the capacity check (claim C1): the
vertical extent of a section — a text section needs one spacing unit per
wrapped line, a gauge a fixed 2. -/
def sectionExtentSpec (cfg : Config) : TypedSection → Int
  | .text _ v => ((wrap v (MAX_C_PER_LINE cfg)).length : Int) * 1
  | .gauge _ _ _ => 2

/-- Modelled from the spec wording of the capacity check (claim C1): sum the
extents, add one inter-section spacer per section, subtract the trailing
spacer. -/
def requiredSpaceSpec (cfg : Config) (ts : List TypedSection) : Int :=
  (ts.map (sectionExtentSpec cfg)).sum + (ts.length : Int) * SPACER - SPACER

/-! ## Observables used by the claims -/

/-- Horizontal boundaries (x of the first corner, x of the second corner) of
a bar-segment (rectangle) instruction. -/
def rectBoundary : Instr → Option (Int × Int)
  | .rectangle c0 c1 _ => some (c0.1, c1.1)
  | _ => none

/-- Horizontal boundaries the bar segments of a gauge actually get: the i-th
segment runs from the previous input-order mark's offset (from GAUGE_OFFSET
for the first) to the i-th input-order mark's offset. -/
def gaugeBoundarySpec (GW GO : Nat) (end_a end_b : Int) (values : List Int) :
    List (Int × Int) :=
  let offs := values.map (fun v => get_gauge_offset GW GO v end_a end_b)
  ((GO : Int) :: offs).zip offs

/-- Predicate selecting the needle line instruction of a gauge. -/
def isNeedleLine : Instr → Bool
  | .line _ _ _ _ => true
  | _ => false

/-- Consecutive bar boundaries from a starting x over a mark list. -/
def boundariesFrom (off : Int → Int) : Int → List Int → List (Int × Int)
  | _, [] => []
  | x0, v :: vs => (x0, off v) :: boundariesFrom off (off v) vs

/-- Invariant of the gauge mark loop: `placed` pairs each placed mark with
its offset in placement order, the most recently placed pair closes the list
and dominates every recorded offset, and consecutive placed labels keep the
non-collision gap (hence strictly increasing offsets). -/
def placedInv (GW GO : Nat) (ea eb : Int) (st : GaugeState) : Prop :=
  (st.lastPlaced = none → st.placed = []) ∧
  (∀ p, st.lastPlaced = some p → st.placed.getLast? = some p ∧
    ∀ q ∈ st.placed, q.2 ≤ p.2) ∧
  (∀ q ∈ st.placed, q.2 = get_gauge_offset GW GO q.1 ea eb) ∧
  List.Chain' (fun p q : Int × Int =>
    p.2 + get_number_half_width p.1 ≤ q.2 - get_number_half_width q.1 ∧ p.2 < q.2)
    st.placed

/-- The mutation DashImage.create applies to a section mapping: a gauge
section whose `type`, `value`, `color` and `range` keys are all present and
whose color list is a string list gets TEXT_COLOR prepended to it (the
`self.colors.insert(0, TEXT_COLOR)` of SectionGauge); every other section is
left alone. -/
def mutateGaugeColor (sec : RawSection) : RawSection :=
  match sec.lookup "type", sec.lookup "value", sec.lookup "color" with
  | some t, some _, some c =>
    if t = .str "gauge" then
      match sec.lookup "range", c.asStrList with
      | some _, some cs => setColor sec (TEXT_COLOR :: cs)
      | _, _ => sec
    else sec
  | _, _, _ => sec

/-! # Helper lemmas on sorted lists -/

theorem headD_mem {l : List Int} (h : l ≠ []) : l.headD 0 ∈ l := by
  cases l with
  | nil => exact absurd rfl h
  | cons a t => simp [List.headD]

theorem getLastD_mem {l : List Int} (h : l ≠ []) : l.getLastD 0 ∈ l := by
  rw [List.getLastD_eq_getLast?, List.getLast?_eq_getLast _ h]
  exact List.getLast_mem h

theorem sorted_headD_le {l : List Int} (hs : l.Sorted (· ≤ ·)) {x : Int}
    (hx : x ∈ l) : l.headD 0 ≤ x := by
  cases l with
  | nil => simp at hx
  | cons a t =>
    rcases List.mem_cons.mp hx with rfl | hxt
    · simp [List.headD]
    · simpa [List.headD] using (List.sorted_cons.mp hs).1 x hxt

theorem le_sorted_getLastD {l : List Int} (hs : l.Sorted (· ≤ ·)) {x : Int}
    (hx : x ∈ l) : x ≤ l.getLastD 0 := by
  induction l with
  | nil => simp at hx
  | cons a t ih =>
    cases t with
    | nil =>
      have : x = a := by simpa using hx
      simp [this]
    | cons b u =>
      rcases List.mem_cons.mp hx with rfl | hxt
      · have hbu : (b :: u).getLastD 0 ∈ b :: u := getLastD_mem (by simp)
        have := (List.sorted_cons.mp hs).1 _ hbu
        simpa [List.getLastD] using this
      · have := ih (List.sorted_cons.mp hs).2 hxt
        simpa [List.getLastD] using this

/-- sorted(values)[0] and sorted(values)[-1] are the minimum and the maximum
of the marks. -/
theorem gaugeEndpoints_eq_min_max {values : List Int} {lo hi : Int}
    (hlo : lo ∈ values) (hlo2 : ∀ x ∈ values, lo ≤ x)
    (hhi : hi ∈ values) (hhi2 : ∀ x ∈ values, x ≤ hi) :
    gaugeEndpoints values = (lo, hi) := by
  have hperm := List.perm_insertionSort (α := Int) (· ≤ ·) values
  have hsort := List.sorted_insertionSort (α := Int) (· ≤ ·) values
  set s := List.insertionSort (α := Int) (· ≤ ·) values with hs
  have hne : s ≠ [] := by
    intro h
    rw [h] at hperm
    exact absurd (hperm.symm.subset hlo) (by simp)
  have e1 : s.headD 0 = lo :=
    le_antisymm (sorted_headD_le hsort (hperm.mem_iff.mpr hlo))
      (hlo2 _ (hperm.subset (headD_mem hne)))
  have e2 : s.getLastD 0 = hi :=
    le_antisymm (hhi2 _ (hperm.subset (getLastD_mem hne)))
      (le_sorted_getLastD hsort (hperm.mem_iff.mpr hhi))
  simp only [gaugeEndpoints, ← hs, e1, e2]

/-! # Claim C4 -/

/-- C4: for every gauge with lo = min(marks) and hi = max(marks), the pixel
offset of a value v is `(v - lo) * GAUGE_WIDTH // (hi - lo) + GAUGE_OFFSET`
with Python floor division; concretely, for lo = 0, hi = 100,
GAUGE_WIDTH = 432, GAUGE_OFFSET = 24: offset(50) = 240 and offset(33) = 166
— the remainder of 33 * 432 by 100 being 56, rounding to nearest would have
produced 167, so truncation is observable. -/
theorem C4_gauge_offset_exact :
    (∀ (GW GO : Nat) (marks : List Int) (lo hi v : Int),
      lo ∈ marks → (∀ x ∈ marks, lo ≤ x) → hi ∈ marks → (∀ x ∈ marks, x ≤ hi) →
      needleOffset GW GO v marks = Int.fdiv ((v - lo) * GW) (hi - lo) + GO) ∧
    get_gauge_offset 432 24 50 0 100 = 240 ∧
    get_gauge_offset 432 24 33 0 100 = 166 ∧
    (33 * 432) % 100 = 56 := by
  refine ⟨?_, by decide, by decide, by decide⟩
  intro GW GO marks lo hi v h1 h2 h3 h4
  rw [needleOffset, gaugeEndpoints_eq_min_max h1 h2 h3 h4, get_gauge_offset]

/-- Witness for C4 at the concrete mark list [100, 0, 33]. -/
theorem C4_gauge_offset_exact_witness :
    ((0 : Int) ∈ [(100 : Int), 0, 33]) ∧ ((100 : Int) ∈ [(100 : Int), 0, 33]) ∧
    needleOffset 432 24 33 [100, 0, 33] = 166 :=
  ⟨by decide, by decide,
    (C4_gauge_offset_exact.1 432 24 [100, 0, 33] 0 100 33 (by decide) (by decide)
      (by decide) (by decide)).trans (by decide)⟩

/-! # Claim C7 -/

/-- C7: a gauge whose marks all share one value (lo = hi) does NOT surface a
DegenerateGaugeRange error: the division of get_gauge_offset is reached with
`length = 0` and raises an uncaught ZeroDivisionError, which aborts the
whole render (the spec flags exactly this as the code's gap). -/
theorem C7_degenerate_gauge_zero_division :
    gaugeRender 432 24 0 50 [50, 50] ["#FF0000"] = .error .zeroDivision ∧
    createModel cfg480 "2021-01-01 00:00:00" "mod" "T"
      [[("type", .str "gauge"), ("color", .strList ["#FF0000"]),
        ("value", .int 50), ("range", .intList [50, 50])]] = .error .zeroDivision := by
  constructor <;> rfl

/-! # Claim C3 -/

/-- C3: a request whose 2nd of 3 sections is a text section missing `value`
is NOT skipped-and-continued: the capacity check itself reads
`section['value']` and the uncaught KeyError aborts create before anything
is rendered; likewise a section with an unrecognized type aborts the
capacity check with the KeyError of the SECTION_SPACING lookup. -/
theorem C3_malformed_section_fatal :
    sections_fit cfg480
      [TypedSection.toRaw (.text "#FFFFFF" "a"),
       [("type", .str "text"), ("color", .str "#FFFFFF")],
       TypedSection.toRaw (.text "#FFFFFF" "b")] = .error (.keyError "value") ∧
    createModel cfg480 "2021-01-01 00:00:00" "mod" "Title"
      [TypedSection.toRaw (.text "#FFFFFF" "a"),
       [("type", .str "text"), ("color", .str "#FFFFFF")],
       TypedSection.toRaw (.text "#FFFFFF" "b")] = .error (.keyError "value") ∧
    sections_fit cfg480
      [[("type", .str "unknown"), ("value", .int 0), ("color", .str "#FFFFFF")]] =
      .error .unknownType := by
  refine ⟨by rfl, by rfl, by rfl⟩

/-! # Claims C1 and C9: the capacity check -/

/-- Accumulating the sections_fit loop over well-typed sections never fails
and adds, per section, its extent plus one SPACER. -/
theorem foldlM_sectionSpace_typed (cfg : Config) (ts : List TypedSection) (acc : Int) :
    (ts.map TypedSection.toRaw).foldlM (sectionSpace cfg) acc =
      .ok (acc + (ts.map (sectionExtentSpec cfg)).sum + (ts.length : Int) * SPACER) := by
  induction ts generalizing acc with
  | nil => simp; rfl
  | cons s rest ih =>
    cases s with
    | text c v =>
      have hstep : sectionSpace cfg acc (TypedSection.toRaw (.text c v)) =
          .ok (acc + ((wrap v (MAX_C_PER_LINE cfg)).length : Int) * 1 + SPACER) := rfl
      rw [List.map_cons, List.foldlM_cons, hstep]
      show (rest.map TypedSection.toRaw).foldlM (sectionSpace cfg) _ = _
      rw [ih]
      congr 1
      simp only [List.map_cons, List.sum_cons, List.length_cons, sectionExtentSpec]
      push_cast
      ring
    | gauge cs v r =>
      have hstep : sectionSpace cfg acc (TypedSection.toRaw (.gauge cs v r)) =
          .ok (acc + 2 + SPACER) := rfl
      rw [List.map_cons, List.foldlM_cons, hstep]
      show (rest.map TypedSection.toRaw).foldlM (sectionSpace cfg) _ = _
      rw [ih]
      congr 1
      simp only [List.map_cons, List.sum_cons, List.length_cons, sectionExtentSpec]
      push_cast
      ring

/-- C1: on well-typed sections the capacity check returns exactly
`free_space > required`, where required sums each section's extent (wrapped
line count for text, 2 for a gauge) plus one inter-section spacer per
section minus the trailing one, and free_space is
`canvas_height - (title_height + spacer) - (footer_height + 2*spacer) -
2*vertical_spacer`.  (The hypothesis keeps the canvas wide enough for
textwrap's positive-width requirement.) -/
theorem C1_sections_fit_spec (cfg : Config) (ts : List TypedSection)
    (hpos : 0 < MAX_C_PER_LINE cfg) :
    sections_fit cfg (ts.map TypedSection.toRaw) =
      .ok (decide (free_space cfg > requiredSpaceSpec cfg ts)) := by
  unfold sections_fit
  rw [foldlM_sectionSpace_typed cfg ts 0]
  show Except.ok (decide _) = Except.ok (decide _)
  congr 2
  unfold requiredSpaceSpec
  ring

/-- Witness for C1 at the default canvas with one text and one gauge
section. -/
theorem C1_sections_fit_spec_witness :
    0 < MAX_C_PER_LINE cfg480 ∧
    sections_fit cfg480 ([TypedSection.text "#FFFFFF" "hello",
        TypedSection.gauge ["#FF0000"] 50 [0, 100]].map TypedSection.toRaw) =
      .ok (decide (free_space cfg480 > requiredSpaceSpec cfg480
        [TypedSection.text "#FFFFFF" "hello", TypedSection.gauge ["#FF0000"] 50 [0, 100]])) :=
  ⟨by decide, C1_sections_fit_spec cfg480 _ (by decide)⟩

/-- C9: the space computed by the capacity check is strictly monotone in the
section list — appending any section (even a text section wrapping to zero
lines) strictly increases it, and a request whose required space
(`a - SPACER`) already reaches free_space still fails the check after
appending any section. -/
theorem C9_capacity_monotone (cfg : Config) (ts : List TypedSection)
    (sec : TypedSection) (a b : Int)
    (ha : (ts.map TypedSection.toRaw).foldlM (sectionSpace cfg) 0 = .ok a)
    (hb : ((ts ++ [sec]).map TypedSection.toRaw).foldlM (sectionSpace cfg) 0 = .ok b) :
    a < b ∧ (free_space cfg ≤ a - SPACER →
      sections_fit cfg ((ts ++ [sec]).map TypedSection.toRaw) = .ok false) := by
  rw [foldlM_sectionSpace_typed] at ha hb
  have ha' := (Except.ok.injEq _ _).mp ha
  have hb' := (Except.ok.injEq _ _).mp hb
  have hext : 0 ≤ sectionExtentSpec cfg sec := by
    cases sec with
    | text c v => simp [sectionExtentSpec]
    | gauge cs v r => simp [sectionExtentSpec]
  have hb2 : b = a + sectionExtentSpec cfg sec + SPACER := by
    rw [← ha', ← hb']
    simp only [List.map_append, List.sum_append, List.length_append, List.map_cons,
      List.map_nil, List.sum_cons, List.sum_nil, List.length_cons, List.length_nil]
    push_cast
    ring
  have hS : (0 : Int) < SPACER := by decide
  constructor
  · omega
  · intro hfree
    unfold sections_fit
    rw [foldlM_sectionSpace_typed, hb']
    show Except.ok (decide (free_space cfg > b - SPACER)) = Except.ok false
    congr 1
    rw [decide_eq_false_iff_not]
    omega

/-- Witness for C9: fifteen gauges exactly reach free_space on the default
canvas; appending an empty text section (zero wrapped lines) keeps the check
failing. -/
theorem C9_capacity_monotone_witness :
    ((List.replicate 15 (TypedSection.gauge ["#FF0000"] 0 [0, 1])).map
        TypedSection.toRaw).foldlM (sectionSpace cfg480) 0 = .ok 180 ∧
    (((List.replicate 15 (TypedSection.gauge ["#FF0000"] 0 [0, 1])) ++
        [TypedSection.text "#FFFFFF" ""]).map TypedSection.toRaw).foldlM
        (sectionSpace cfg480) 0 = .ok 190 ∧
    (180 : Int) < 190 ∧
    sections_fit cfg480 (((List.replicate 15 (TypedSection.gauge ["#FF0000"] 0 [0, 1])) ++
      [TypedSection.text "#FFFFFF" ""]).map TypedSection.toRaw) = .ok false := by
  refine ⟨by rfl, by rfl, ?_, ?_⟩
  · exact (C9_capacity_monotone cfg480
      (List.replicate 15 (TypedSection.gauge ["#FF0000"] 0 [0, 1]))
      (TypedSection.text "#FFFFFF" "") 180 190 (by rfl) (by rfl)).1
  · exact (C9_capacity_monotone cfg480
      (List.replicate 15 (TypedSection.gauge ["#FF0000"] 0 [0, 1]))
      (TypedSection.text "#FFFFFF" "") 180 190 (by rfl) (by rfl)).2 (by decide)

/-! # Claim C2: the capacity gate -/

theorem does_gauge_value_collide_ne_tooMany (placed : List (Int × Int))
    (v o : Int) (k : Nat) :
    does_gauge_value_collide placed v o ≠ .error (.tooManySections k) := by
  unfold does_gauge_value_collide
  split
  · simp
  · simp only []
    repeat' split
    all_goals simp

theorem gaugeRender_ne_tooMany (GW GO : Nat) (y value : Int) (vs : List Int)
    (cs : List String) (k : Nat) :
    gaugeRender GW GO y value vs cs ≠ .error (.tooManySections k) := by
  unfold gaugeRender
  cases vs with
  | nil => simp
  | cons v rest =>
    simp only []
    split
    · simp
    · split
      · rename_i e heq
        intro hcon
        have he : e = Err.tooManySections k := (Except.error.injEq _ _).mp hcon
        rw [he] at heq
        exact does_gauge_value_collide_ne_tooMany _ _ _ k heq
      · simp

theorem createStep_ne_tooMany (cfg : Config) (st : LoopState) (sec : RawSection)
    (k : Nat) : createStep cfg st sec ≠ .error (.tooManySections k) := by
  unfold createStep
  cases h1 : sec.lookup "type" with
  | none => simp [skipSection]
  | some t =>
    cases h2 : sec.lookup "value" with
    | none => simp [skipSection]
    | some v =>
      cases h3 : sec.lookup "color" with
      | none => simp [skipSection]
      | some c =>
        simp only []
        by_cases ht : t = .str "text"
        · rw [if_pos ht]
          cases hv : v.asStr with
          | none => cases hc : c.asStr <;> simp
          | some s =>
            cases hc : c.asStr with
            | none => simp
            | some col => simp only []; simp
        · rw [if_neg ht]
          by_cases hg : t = .str "gauge"
          · rw [if_pos hg]
            cases h4 : sec.lookup "range" with
            | none => simp [skipSection]
            | some r =>
              simp only []
              rcases hri : r.asIntList with _ | range
              · simp [hri]
              · rcases hcs : c.asStrList with _ | colors
                · simp [hri, hcs]
                · rcases hvi : v.asInt with _ | value
                  · simp [hri, hcs, hvi]
                  · simp only [hri, hcs, hvi]
                    cases hgr : gaugeRender cfg.gaugeWidth cfg.gaugeOffset st.y
                        value range colors with
                    | error e =>
                      simp only [hgr]
                      intro hcon
                      have he : e = Err.tooManySections k :=
                        (Except.error.injEq _ _).mp hcon
                      rw [he] at hgr
                      exact gaugeRender_ne_tooMany _ _ _ _ _ _ k hgr
                    | ok g => simp [hgr]
          · rw [if_neg hg]
            cases st.prev <;> simp [skipSection]

theorem foldlM_createStep_ne_tooMany (cfg : Config) (secs : List RawSection)
    (st : LoopState) (k : Nat) :
    secs.foldlM (createStep cfg) st ≠ .error (.tooManySections k) := by
  induction secs generalizing st with
  | nil => intro h; exact Except.noConfusion h
  | cons s rest ih =>
    rw [List.foldlM_cons]
    cases h : createStep cfg st s with
    | error e =>
      show Except.error e ≠ _
      intro hcon
      have he : e = Err.tooManySections k := (Except.error.injEq _ _).mp hcon
      rw [he] at h
      exact createStep_ne_tooMany cfg st s k h
    | ok st' =>
      show rest.foldlM (createStep cfg) st' ≠ _
      exact ih st'

/-- C2 amended: when the capacity check returns false, create raises
TooManySections carrying the section count, before any instruction is built
or file written (the model yields the error and nothing else); when the
check returns true, TooManySections is never raised — but the whole request
is laid out only if no section aborts the render with an uncaught error
(see the counterexample: a degenerate gauge aborts after the title). -/
theorem C2_capacity_gate (cfg : Config) (now module title : String)
    (sections : List RawSection) :
    (sections_fit cfg sections = .ok false →
      createModel cfg now module title sections =
        .error (.tooManySections sections.length)) ∧
    (sections_fit cfg sections = .ok true →
      ∀ k, createModel cfg now module title sections ≠
        .error (.tooManySections k)) := by
  constructor
  · intro hfit
    unfold createModel
    rw [hfit]
    rfl
  · intro hfit k
    unfold createModel
    rw [hfit]
    show (sections.foldlM (createStep cfg) _ >>= _) ≠ _
    cases h : sections.foldlM (createStep cfg)
      { instrs := (sectionText cfg 0 title TEXT_COLOR .title).1,
        y := (sectionText cfg 0 title TEXT_COLOR .title).2, prev := none, out := [] } with
    | error e =>
      show Except.error e ≠ _
      intro hcon
      have he : e = Err.tooManySections k := (Except.error.injEq _ _).mp hcon
      rw [he] at h
      exact foldlM_createStep_ne_tooMany cfg sections _ k h
    | ok final =>
      show Except.ok _ ≠ Except.error _
      simp

/-- Witness for C2: seventeen gauges overflow the default canvas and raise
TooManySections 17; a single short text section fits and never raises it. -/
theorem C2_capacity_gate_witness :
    sections_fit cfg480 (List.replicate 17 (TypedSection.toRaw
      (TypedSection.gauge ["#FF0000"] 0 [0, 1]))) = .ok false ∧
    createModel cfg480 "2021-01-04 00:00:00" "mod4" "T4"
      (List.replicate 17 (TypedSection.toRaw (TypedSection.gauge ["#FF0000"] 0 [0, 1]))) =
      .error (.tooManySections 17) ∧
    sections_fit cfg480 [TypedSection.toRaw (.text "#FFFFFF" "hi")] = .ok true ∧
    createModel cfg480 "2021-01-04 00:00:00" "mod4" "T4"
      [TypedSection.toRaw (.text "#FFFFFF" "hi")] ≠
      .error (.tooManySections 1) := by
  refine ⟨by rfl, ?_, by rfl, ?_⟩
  · exact (C2_capacity_gate cfg480 "2021-01-04 00:00:00" "mod4" "T4" _).1 (by rfl)
  · exact (C2_capacity_gate cfg480 "2021-01-04 00:00:00" "mod4" "T4" _).2 (by rfl) 1

/-! # Claim C8: mutation of the request -/

/-- gaugeRender returns, as its third component, exactly the mutated color
list TEXT_COLOR :: colors. -/
theorem gaugeRender_colors (GW GO : Nat) (y value : Int) (vs : List Int)
    (cs : List String) (g : List Instr × Int × List String)
    (h : gaugeRender GW GO y value vs cs = .ok g) : g.2.2 = TEXT_COLOR :: cs := by
  unfold gaugeRender at h
  cases vs with
  | nil => exact Except.noConfusion h
  | cons v rest =>
    simp only [] at h
    split at h
    · exact Except.noConfusion h
    · split at h
      · exact Except.noConfusion h
      · have := (Except.ok.injEq _ _).mp h
        rw [← this]

/-- One loop iteration of create records, in `out`, exactly the section as
mutated by mutateGaugeColor. -/
theorem createStep_out (cfg : Config) (st : LoopState) (sec : RawSection)
    (st' : LoopState) :
    createStep cfg st sec = .ok st' → st'.out = st.out ++ [mutateGaugeColor sec] := by
  unfold createStep
  unfold mutateGaugeColor
  cases h1 : sec.lookup "type" with
  | none =>
    intro h
    rw [← (Except.ok.injEq _ _).mp h]
    rfl
  | some t =>
    cases h2 : sec.lookup "value" with
    | none =>
      intro h
      rw [← (Except.ok.injEq _ _).mp h]
      rfl
    | some v =>
      cases h3 : sec.lookup "color" with
      | none =>
        intro h
        rw [← (Except.ok.injEq _ _).mp h]
        rfl
      | some c =>
        simp only []
        by_cases ht : t = .str "text"
        · rw [if_pos ht]
          subst ht
          rw [if_neg (by decide : ¬ JVal.str "text" = JVal.str "gauge")]
          rcases hvs : v.asStr with _ | s
          · rcases hcs : c.asStr with _ | col <;>
              exact fun h => Except.noConfusion h
          · rcases hcs : c.asStr with _ | col
            · exact fun h => Except.noConfusion h
            · intro h
              rw [← (Except.ok.injEq _ _).mp h]
        · rw [if_neg ht]
          by_cases hg : t = .str "gauge"
          · rw [if_pos hg]
            subst hg
            rw [if_pos rfl]
            cases h4 : sec.lookup "range" with
            | none =>
              rcases hcs : c.asStrList with _ | colors <;>
                · simp only []
                  intro h
                  rw [← (Except.ok.injEq _ _).mp h]
                  rfl
            | some r =>
              simp only []
              rcases hri : r.asIntList with _ | range
              · rcases hcs : c.asStrList with _ | colors <;>
                  rcases hvi : v.asInt with _ | value <;>
                  exact fun h => Except.noConfusion h
              · rcases hcs : c.asStrList with _ | colors
                · rcases hvi : v.asInt with _ | value <;>
                    exact fun h => Except.noConfusion h
                · rcases hvi : v.asInt with _ | value
                  · exact fun h => Except.noConfusion h
                  · simp only []
                    cases hgr : gaugeRender cfg.gaugeWidth cfg.gaugeOffset st.y
                        value range colors with
                    | error e => exact fun h => Except.noConfusion h
                    | ok g =>
                      intro h
                      rw [← (Except.ok.injEq _ _).mp h]
                      simp only []
                      rw [gaugeRender_colors _ _ _ _ _ _ _ hgr]
          · rw [if_neg hg, if_neg hg]
            cases hp : st.prev with
            | none =>
              intro h
              rw [← (Except.ok.injEq _ _).mp h]
              rfl
            | some p =>
              intro h
              rw [← (Except.ok.injEq _ _).mp h]

/-- Folding create's loop appends, per input section, its mutated form. -/
theorem foldlM_createStep_out (cfg : Config) (secs : List RawSection)
    (st final : LoopState) (h : secs.foldlM (createStep cfg) st = .ok final) :
    final.out = st.out ++ secs.map mutateGaugeColor := by
  induction secs generalizing st with
  | nil =>
    have : st = final := (Except.ok.injEq _ _).mp h
    rw [← this]
    simp
  | cons s rest ih =>
    rw [List.foldlM_cons] at h
    cases hs : createStep cfg st s with
    | error e =>
      rw [hs] at h
      exact Except.noConfusion h
    | ok st' =>
      rw [hs] at h
      have hout := ih st' h
      rw [hout, createStep_out cfg st s st' hs]
      simp

/-- C8 amended: on a successful render the module and title are untouched
and every section survives unchanged except that each rendered gauge
section's color list gets TEXT_COLOR prepended (the
`self.colors.insert(0, TEXT_COLOR)` mutation); gauge range lists and text
sections are never modified. -/
theorem C8_gauge_color_mutation (cfg : Config) (now module title : String)
    (sections : List RawSection) (res : List Instr × List RawSection)
    (h : createModel cfg now module title sections = .ok res) :
    res.2 = sections.map mutateGaugeColor := by
  unfold createModel at h
  cases hfit : sections_fit cfg sections with
  | error e =>
    rw [hfit] at h
    exact Except.noConfusion h
  | ok fit =>
    rw [hfit] at h
    cases fit with
    | false => exact Except.noConfusion h
    | true =>
      replace h : (sections.foldlM (createStep cfg)
          { instrs := (sectionText cfg 0 title TEXT_COLOR .title).1,
            y := (sectionText cfg 0 title TEXT_COLOR .title).2,
            prev := none, out := [] } >>=
          fun final => Except.ok (final.instrs ++ sectionFooter cfg now, final.out)) =
          Except.ok res := h
      cases hfold : sections.foldlM (createStep cfg)
          { instrs := (sectionText cfg 0 title TEXT_COLOR .title).1,
            y := (sectionText cfg 0 title TEXT_COLOR .title).2,
            prev := none, out := [] } with
      | error e =>
        rw [hfold] at h
        exact Except.noConfusion h
      | ok final =>
        rw [hfold] at h
        replace h : (final.instrs ++ sectionFooter cfg now, final.out) = res :=
          (Except.ok.injEq _ _).mp h
        rw [← h]
        have := foldlM_createStep_out cfg sections _ final hfold
        simpa using this

/-- Witness for C8 at a one-gauge request on the default canvas. -/
theorem C8_gauge_color_mutation_witness :
    Except.map Prod.snd (createModel cfg480 "2021-01-05 00:00:00" "mod5" "T5"
      [[("type", JVal.str "gauge"), ("color", JVal.strList ["#0000FF"]),
        ("value", JVal.int 30), ("range", JVal.intList [0, 60])]]) =
      .ok ([[("type", JVal.str "gauge"), ("color", JVal.strList ["#0000FF"]),
        ("value", JVal.int 30), ("range", JVal.intList [0, 60])]].map
          mutateGaugeColor) := by
  have hok : (createModel cfg480 "2021-01-05 00:00:00" "mod5" "T5"
      [[("type", JVal.str "gauge"), ("color", JVal.strList ["#0000FF"]),
        ("value", JVal.int 30), ("range", JVal.intList [0, 60])]]).toOption.isSome =
      true := by rfl
  cases hc : createModel cfg480 "2021-01-05 00:00:00" "mod5" "T5"
      [[("type", JVal.str "gauge"), ("color", JVal.strList ["#0000FF"]),
        ("value", JVal.int 30), ("range", JVal.intList [0, 60])]] with
  | error e =>
    rw [hc] at hok
    exact Bool.noConfusion hok
  | ok res =>
    show Except.ok res.2 = _
    rw [C8_gauge_color_mutation cfg480 "2021-01-05 00:00:00" "mod5" "T5" _ res hc]

/-! # Claim C5: bar segments -/

/-- The rectangles emitted by the gauge mark loop run from boundary to
boundary, in input order, regardless of any label suppression. -/
theorem gaugeLoop_rects (GW GO : Nat) (ea eb ylab y0 y1 : Int)
    (pairs : List (Int × String)) (st : GaugeState) :
    (pairs.foldl (gaugeStep GW GO ea eb ylab y0 y1) st).instrs.filterMap rectBoundary =
      st.instrs.filterMap rectBoundary ++
        boundariesFrom (fun v => get_gauge_offset GW GO v ea eb) st.lastX
          (pairs.map Prod.fst) := by
  induction pairs generalizing st with
  | nil => simp [boundariesFrom]
  | cons p rest ih =>
    rw [List.foldl_cons, ih]
    simp only [gaugeStep, List.map_cons, boundariesFrom]
    split <;> simp [rectBoundary, List.filterMap_append]

theorem boundariesFrom_zip (off : Int → Int) (x0 : Int) (vs : List Int) :
    boundariesFrom off x0 vs = ((x0 :: vs.map off).zip (vs.map off)) := by
  induction vs generalizing x0 with
  | nil => rfl
  | cons v rest ih => simp [boundariesFrom, ih]

/-- C5 amended: whenever a gauge renders, it emits exactly one bar-segment
rectangle per mark; the i-th segment runs from the previous input-order
mark's offset (from GAUGE_OFFSET for the first) to the i-th input-order
mark's offset — the boundaries follow the input order, not the sorted
order, and label suppression never affects them. -/
theorem C5_bar_segments (GW GO : Nat) (y value : Int) (vs : List Int)
    (cs : List String) (hlen : vs.length ≤ cs.length + 1) :
    Except.map (fun r => r.1.filterMap rectBoundary) (gaugeRender GW GO y value vs cs) =
      Except.map (fun _ => gaugeBoundarySpec GW GO (gaugeEndpoints vs).1
        (gaugeEndpoints vs).2 vs) (gaugeRender GW GO y value vs cs) ∧
    (gaugeBoundarySpec GW GO (gaugeEndpoints vs).1 (gaugeEndpoints vs).2 vs).length =
      vs.length := by
  constructor
  · unfold gaugeRender
    cases vs with
    | nil => rfl
    | cons v rest =>
      simp only []
      split
      · rfl
      · cases hc : does_gauge_value_collide
            (gaugeLoopState GW GO y (v :: rest) cs).placed value
            (needleOffset GW GO value (v :: rest)) with
        | error e => rfl
        | ok c =>
          show Except.ok _ = Except.ok _
          congr 1
          simp only []
          rw [List.filterMap_append, List.filterMap_append]
          have h1 : (if c then [] else [valueLabelInstr y value
              (needleOffset GW GO value (v :: rest))]).filterMap rectBoundary = [] := by
            split <;> rfl
          have h2 : ([needleInstr y (needleOffset GW GO value (v :: rest))] :
              List Instr).filterMap rectBoundary = [] := rfl
          rw [h1, h2]
          simp only [List.append_nil]
          unfold gaugeLoopState gaugeLoop
          rw [gaugeLoop_rects]
          have hfst : ((v :: rest).zip (TEXT_COLOR :: cs)).map Prod.fst = v :: rest :=
            List.map_fst_zip _ _ (by simpa using hlen)
          rw [hfst]
          simp only [List.filterMap_nil, List.nil_append]
          rw [boundariesFrom_zip]
          rfl
  · simp only [gaugeBoundarySpec, List.length_zip, List.length_cons, List.length_map]
    omega

/-- Witness for C5 at marks [10, 20]. -/
theorem C5_bar_segments_witness :
    ([10, 20] : List Int).length ≤ (["#FF0000"] : List String).length + 1 ∧
    Except.map (fun r => r.1.filterMap rectBoundary)
        (gaugeRender 432 24 0 10 [10, 20] ["#FF0000"]) =
      Except.map (fun _ => gaugeBoundarySpec 432 24 (gaugeEndpoints [10, 20]).1
        (gaugeEndpoints [10, 20]).2 [10, 20])
        (gaugeRender 432 24 0 10 [10, 20] ["#FF0000"]) ∧
    (gaugeBoundarySpec 432 24 (gaugeEndpoints [10, 20]).1
      (gaugeEndpoints [10, 20]).2 [10, 20]).length = 2 :=
  ⟨by decide, (C5_bar_segments 432 24 0 10 [10, 20] ["#FF0000"] (by decide)).1,
    (C5_bar_segments 432 24 0 10 [10, 20] ["#FF0000"] (by decide)).2⟩

/-! # Claim C10: placed labels are ordered -/

theorem numDigitsAux_pos (fuel m : Nat) : 1 ≤ numDigitsAux fuel m := by
  cases fuel with
  | zero => exact le_refl 1
  | succ f =>
    unfold numDigitsAux
    split
    · exact le_refl 1
    · omega

theorem get_number_half_width_pos (n : Int) : 1 ≤ get_number_half_width n := by
  unfold get_number_half_width
  simp only [SECTION_CHAR]
  have hd : 1 ≤ (if 1 ≤ n.natAbs then numDigits n.natAbs else 1) := by
    split
    · exact numDigitsAux_pos _ _
    · exact le_refl 1
  omega

theorem gaugeStep_inv (GW GO : Nat) (ea eb ylab y0 y1 : Int) (st : GaugeState)
    (vc : Int × String) (h : placedInv GW GO ea eb st) :
    placedInv GW GO ea eb (gaugeStep GW GO ea eb ylab y0 y1 st vc) := by
  obtain ⟨h1, h2, h3, h4⟩ := h
  unfold gaugeStep
  simp only []
  cases hlp : st.lastPlaced with
  | none =>
    have hpl : st.placed = [] := h1 hlp
    rw [hpl]
    refine ⟨fun hcon => Option.noConfusion hcon, ?_, ?_, ?_⟩
    · intro p hp
      replace hp : some (vc.1, get_gauge_offset GW GO vc.1 ea eb) = some p := hp
      rw [← (Option.some.injEq _ _).mp hp]
      constructor
      · rfl
      · intro q hq
        replace hq : q ∈ dictInsert [] vc.1 (get_gauge_offset GW GO vc.1 ea eb) := hq
        simp [dictInsert] at hq
        rw [hq]
    · intro q hq
      replace hq : q ∈ dictInsert [] vc.1 (get_gauge_offset GW GO vc.1 ea eb) := hq
      simp [dictInsert] at hq
      rw [hq]
    · show List.Chain' _ (dictInsert [] vc.1 (get_gauge_offset GW GO vc.1 ea eb))
      simp [dictInsert]
  | some p =>
    simp only []
    by_cases hcol :
        does_gauge_text_collide vc.1 (get_gauge_offset GW GO vc.1 ea eb) p.1 p.2 = true
    · simp only [hcol, Bool.not_true, Bool.false_eq_true, if_false]
      refine ⟨fun hcon => Option.noConfusion hcon, ?_, h3, h4⟩
      intro p' hp'
      replace hp' : some p = some p' := hp'
      rw [← (Option.some.injEq _ _).mp hp']
      exact h2 p hlp
    · rw [Bool.not_eq_true] at hcol
      simp only [hcol, Bool.not_false, if_true]
      have hgap : p.2 + get_number_half_width p.1 ≤
          get_gauge_offset GW GO vc.1 ea eb - get_number_half_width vc.1 := by
        have := hcol
        unfold does_gauge_text_collide at this
        rw [decide_eq_false_iff_not] at this
        omega
      have hlt : p.2 < get_gauge_offset GW GO vc.1 ea eb := by
        have hv := get_number_half_width_pos vc.1
        have hp := get_number_half_width_pos p.1
        omega
      have hfresh : st.placed.any (fun q => q.1 == vc.1) = false := by
        rw [Bool.eq_false_iff]
        intro hany
        obtain ⟨q, hq, hqk⟩ := List.any_eq_true.mp hany
        have hqk' : q.1 = vc.1 := by simpa using hqk
        have hq2 : q.2 = get_gauge_offset GW GO vc.1 ea eb := by
          rw [h3 q hq, hqk']
        have hle : q.2 ≤ p.2 := (h2 p hlp).2 q hq
        omega
      have hins : dictInsert st.placed vc.1 (get_gauge_offset GW GO vc.1 ea eb) =
          st.placed ++ [(vc.1, get_gauge_offset GW GO vc.1 ea eb)] := by
        unfold dictInsert
        rw [hfresh]
        simp
      rw [hins]
      refine ⟨fun hcon => Option.noConfusion hcon, ?_, ?_, ?_⟩
      · intro p' hp'
        replace hp' : some (vc.1, get_gauge_offset GW GO vc.1 ea eb) = some p' := hp'
        rw [← (Option.some.injEq _ _).mp hp']
        refine ⟨List.getLast?_concat _, ?_⟩
        intro q hq
        rcases List.mem_append.mp hq with hq | hq
        · exact le_trans ((h2 p hlp).2 q hq) (le_of_lt hlt)
        · have : q = (vc.1, get_gauge_offset GW GO vc.1 ea eb) := by simpa using hq
          rw [this]
      · intro q hq
        rcases List.mem_append.mp hq with hq | hq
        · exact h3 q hq
        · have : q = (vc.1, get_gauge_offset GW GO vc.1 ea eb) := by simpa using hq
          rw [this]
      · rw [List.chain'_append]
        refine ⟨h4, List.chain'_singleton _, ?_⟩
        intro x hx y hy
        have hxp : x = p := by
          have hl := (h2 p hlp).1
          rw [hl] at hx
          have h' : p = x := by simpa using hx
          exact h'.symm
        have hyv : y = (vc.1, get_gauge_offset GW GO vc.1 ea eb) := by
          have h' : (vc.1, get_gauge_offset GW GO vc.1 ea eb) = y := by simpa using hy
          exact h'.symm
        rw [hxp, hyv]
        exact ⟨hgap, hlt⟩

theorem gaugeLoop_inv (GW GO : Nat) (ea eb ylab y0 y1 : Int)
    (pairs : List (Int × String)) (st : GaugeState)
    (h : placedInv GW GO ea eb st) :
    placedInv GW GO ea eb (pairs.foldl (gaugeStep GW GO ea eb ylab y0 y1) st) := by
  induction pairs generalizing st with
  | nil => exact h
  | cons p rest ih => exact ih _ (gaugeStep_inv _ _ _ _ _ _ _ _ _ h)

/-- C10: within one gauge render the placed mark labels, in placement order,
keep the non-collision gap — each placed label's left edge is at or right of
the previous placed label's right edge, so the placed offsets strictly
increase and placed labels never overlap. -/
theorem C10_placed_labels_ordered (GW GO : Nat) (y : Int) (values : List Int)
    (colors : List String) :
    List.Chain' (fun p q : Int × Int =>
      p.2 + get_number_half_width p.1 ≤ q.2 - get_number_half_width q.1 ∧ p.2 < q.2)
      (gaugeLoopState GW GO y values colors).placed := by
  unfold gaugeLoopState gaugeLoop
  exact (gaugeLoop_inv _ _ _ _ _ _ _ _ _
    ⟨fun _ => rfl, fun p hp => Option.noConfusion hp,
     fun q hq => absurd hq (List.not_mem_nil q), List.chain'_nil⟩).2.2.2

/-! # Claim C6: the value label's collision test -/

/-- When the value lies strictly between two placed marks, the collision
test compares the value's box against exactly its two sorted neighbours
among the placed marks: the greatest placed mark below and the least placed
mark above. -/
theorem value_collide_neighbors (placed : List (Int × Int))
    (value offset b a boff aoff : Int)
    (hnodup : (placed.map Prod.fst).Nodup)
    (hvnot : value ∉ placed.map Prod.fst)
    (hb : b ∈ placed.map Prod.fst) (hblt : b < value)
    (hbmax : ∀ k ∈ placed.map Prod.fst, k < value → k ≤ b)
    (ha : a ∈ placed.map Prod.fst) (halt : value < a)
    (hamin : ∀ k ∈ placed.map Prod.fst, value < k → a ≤ k)
    (hlb : placed.lookup b = some boff) (hla : placed.lookup a = some aoff) :
    does_gauge_value_collide placed value offset =
      .ok ((decide (offset - get_number_half_width value <
            boff + get_number_half_width b)) ||
           (decide (aoff - get_number_half_width a <
            offset + get_number_half_width value))) := by
  have hperm : (List.insertionSort (α := Int) (· ≤ ·)
      (placed.map Prod.fst ++ [value])).Perm (placed.map Prod.fst ++ [value]) :=
    List.perm_insertionSort _ _
  have hsort : (List.insertionSort (α := Int) (· ≤ ·)
      (placed.map Prod.fst ++ [value])).Sorted (· ≤ ·) :=
    List.sorted_insertionSort _ _
  set L := List.insertionSort (α := Int) (· ≤ ·)
    (placed.map Prod.fst ++ [value]) with hLdef
  have hnd : L.Nodup := by
    refine hperm.symm.nodup ?_
    rw [List.nodup_append]
    refine ⟨hnodup, List.nodup_singleton _, ?_⟩
    intro x hx hxv
    rw [List.mem_singleton.mp hxv] at hx
    exact hvnot hx
  have hvL : value ∈ L := hperm.mem_iff.mpr
    (List.mem_append_right _ (List.mem_singleton_self _))
  have hidxlt : L.indexOf value < L.length := List.indexOf_lt_length.mpr hvL
  have hgetv : L.get ⟨L.indexOf value, hidxlt⟩ = value := List.indexOf_get hidxlt
  have hstrict : L.Pairwise (· < ·) :=
    (List.Pairwise.and hsort hnd).imp fun h => lt_of_le_of_ne h.1 h.2
  have hmono : ∀ (i j : Fin L.length), i < j → L.get i < L.get j :=
    fun i j hij => List.pairwise_iff_get.mp hstrict i j hij
  have hmonole : ∀ (i j : Fin L.length), i < j → L.get i ≤ L.get j :=
    fun i j hij => List.pairwise_iff_get.mp hsort i j hij
  have hmemL : ∀ x ∈ placed.map Prod.fst, x ∈ L :=
    fun x hx => hperm.mem_iff.mpr (List.mem_append_left _ hx)
  obtain ⟨jb, hjb⟩ := List.mem_iff_get.mp (hmemL b hb)
  have hjblt : (jb : Nat) < L.indexOf value := by
    rcases Nat.lt_or_ge (jb : Nat) (L.indexOf value) with hlt | hge
    · exact hlt
    · exfalso
      rcases Nat.eq_or_lt_of_le hge with heq | hlt2
      · have : b = value := by
          rw [← hjb, ← hgetv]
          congr 1
          exact Fin.ext heq.symm
        omega
      · have := hmono ⟨L.indexOf value, hidxlt⟩ jb hlt2
        rw [hgetv, hjb] at this
        omega
  have hidxpos : L.indexOf value ≠ 0 := by
    intro h0
    rw [h0] at hjblt
    exact Nat.not_lt_zero _ hjblt
  have hpred : L.indexOf value - 1 < L.length :=
    lt_of_le_of_lt (Nat.sub_le _ _) hidxlt
  have hwlt : L.get ⟨L.indexOf value - 1, hpred⟩ < value := by
    have := hmono ⟨L.indexOf value - 1, hpred⟩ ⟨L.indexOf value, hidxlt⟩
      (by simp only [Fin.lt_def]; omega)
    rw [hgetv] at this
    exact this
  have hwK : L.get ⟨L.indexOf value - 1, hpred⟩ ∈ placed.map Prod.fst := by
    have hwL : L.get ⟨L.indexOf value - 1, hpred⟩ ∈ L := L.get_mem _ _
    rcases List.mem_append.mp (hperm.subset hwL) with h | h
    · exact h
    · exfalso
      have := List.mem_singleton.mp h
      omega
  have hwb : L.get ⟨L.indexOf value - 1, hpred⟩ = b := by
    have h1 : L.get ⟨L.indexOf value - 1, hpred⟩ ≤ b := hbmax _ hwK hwlt
    have h2 : b ≤ L.get ⟨L.indexOf value - 1, hpred⟩ := by
      have hj : (jb : Nat) ≤ L.indexOf value - 1 := by omega
      rcases Nat.eq_or_lt_of_le hj with heq | hlt2
      · rw [← hjb]
        have : jb = (⟨L.indexOf value - 1, hpred⟩ : Fin L.length) := Fin.ext heq
        rw [this]
      · have := hmonole jb ⟨L.indexOf value - 1, hpred⟩
          (by simp only [Fin.lt_def]; omega)
        rw [hjb] at this
        exact this
    omega
  obtain ⟨ja, hja⟩ := List.mem_iff_get.mp (hmemL a ha)
  have hjagt : L.indexOf value < (ja : Nat) := by
    rcases Nat.lt_or_ge (L.indexOf value) (ja : Nat) with hlt | hge
    · exact hlt
    · exfalso
      rcases Nat.eq_or_lt_of_le hge with heq | hlt2
      · have : a = value := by
          rw [← hja, ← hgetv]
          congr 1
          exact Fin.ext heq
        omega
      · have := hmono ja ⟨L.indexOf value, hidxlt⟩ hlt2
        rw [hgetv, hja] at this
        omega
  have hsucc : L.indexOf value + 1 < L.length := by
    have := ja.isLt
    omega
  have hult : value < L.get ⟨L.indexOf value + 1, hsucc⟩ := by
    have := hmono ⟨L.indexOf value, hidxlt⟩ ⟨L.indexOf value + 1, hsucc⟩
      (by simp only [Fin.lt_def]; omega)
    rw [hgetv] at this
    exact this
  have huK : L.get ⟨L.indexOf value + 1, hsucc⟩ ∈ placed.map Prod.fst := by
    have huL : L.get ⟨L.indexOf value + 1, hsucc⟩ ∈ L := L.get_mem _ _
    rcases List.mem_append.mp (hperm.subset huL) with h | h
    · exact h
    · exfalso
      have := List.mem_singleton.mp h
      omega
  have hua : L.get ⟨L.indexOf value + 1, hsucc⟩ = a := by
    have h1 : a ≤ L.get ⟨L.indexOf value + 1, hsucc⟩ := hamin _ huK hult
    have h2 : L.get ⟨L.indexOf value + 1, hsucc⟩ ≤ a := by
      have hj : L.indexOf value + 1 ≤ (ja : Nat) := by omega
      rcases Nat.eq_or_lt_of_le hj with heq | hlt2
      · rw [← hja]
        have : (⟨L.indexOf value + 1, hsucc⟩ : Fin L.length) = ja := Fin.ext heq
        rw [this]
      · have := hmonole ⟨L.indexOf value + 1, hsucc⟩ ja
          (by simp only [Fin.lt_def]; omega)
        rw [hja] at this
        exact this
    omega
  have hcont : (placed.map Prod.fst).contains value = false := by
    rw [Bool.eq_false_iff]
    intro hc
    exact hvnot (List.elem_iff.mp hc)
  unfold does_gauge_value_collide
  rw [hcont]
  simp only [Bool.false_eq_true, if_false, ← hLdef]
  rw [if_neg hidxpos]
  rw [List.get?_eq_get hsucc]
  simp only []
  rw [List.getD_eq_get L 0 hpred, hwb, hua, hlb, hla]
  simp only [Option.getD_some]
  by_cases h1 : offset - get_number_half_width value < boff + get_number_half_width b
  · rw [if_pos h1]
    simp [h1]
  · rw [if_neg h1]
    by_cases h2 : aoff - get_number_half_width a < offset + get_number_half_width value
    · rw [if_pos h2]
      simp [h1, h2]
    · rw [if_neg h2]
      simp [h1, h2]

/-- Whenever a gauge renders, its instructions are the mark loop's output,
then the value label exactly when the collision test said no collision, then
— always, and last — the needle line. -/
theorem gaugeRender_value_label (GW GO : Nat) (y value : Int) (vs : List Int)
    (cs : List String) (c : Bool)
    (hc : does_gauge_value_collide (gaugeLoopState GW GO y vs cs).placed value
      (needleOffset GW GO value vs) = .ok c) :
    Except.map Prod.fst (gaugeRender GW GO y value vs cs) =
      Except.map (fun _ => (gaugeLoopState GW GO y vs cs).instrs ++
        (if c then [] else [valueLabelInstr y value (needleOffset GW GO value vs)]) ++
        [needleInstr y (needleOffset GW GO value vs)])
        (gaugeRender GW GO y value vs cs) := by
  unfold gaugeRender
  cases vs with
  | nil => rfl
  | cons v rest =>
    simp only []
    split
    · rfl
    · rw [hc]
      rfl

/-- C6 amended: the value's label is collision-tested against its two sorted
neighbours among the placed marks when the value lies strictly between the
least and greatest placed mark labels (first conjunct); and on every
successful gauge render the value label instruction is emitted exactly when
that test reported no collision, while the needle line is always emitted
(second conjunct).  The original claim fails when the value lies above every
placed label: `values[index + 1]` raises an uncaught IndexError and not even
the needle is drawn (see the counterexample). -/
theorem C6_value_label_collision :
    (∀ (placed : List (Int × Int)) (value offset b a boff aoff : Int),
      (placed.map Prod.fst).Nodup →
      value ∉ placed.map Prod.fst →
      b ∈ placed.map Prod.fst → b < value →
      (∀ k ∈ placed.map Prod.fst, k < value → k ≤ b) →
      a ∈ placed.map Prod.fst → value < a →
      (∀ k ∈ placed.map Prod.fst, value < k → a ≤ k) →
      placed.lookup b = some boff → placed.lookup a = some aoff →
      does_gauge_value_collide placed value offset =
        .ok ((decide (offset - get_number_half_width value <
              boff + get_number_half_width b)) ||
             (decide (aoff - get_number_half_width a <
              offset + get_number_half_width value)))) ∧
    (∀ (GW GO : Nat) (y value : Int) (vs : List Int) (cs : List String) (c : Bool),
      does_gauge_value_collide (gaugeLoopState GW GO y vs cs).placed value
        (needleOffset GW GO value vs) = .ok c →
      Except.map Prod.fst (gaugeRender GW GO y value vs cs) =
        Except.map (fun _ => (gaugeLoopState GW GO y vs cs).instrs ++
          (if c then [] else [valueLabelInstr y value (needleOffset GW GO value vs)]) ++
          [needleInstr y (needleOffset GW GO value vs)])
          (gaugeRender GW GO y value vs cs)) :=
  ⟨value_collide_neighbors, gaugeRender_value_label⟩

/-- Witness for C6: placed labels 0 (at 24) and 98 (at 447); the value 50 at
offset 240 collides with neither neighbour; and the gauge over marks
[0, 100] with value 50 emits its value label and its needle line. -/
theorem C6_value_label_collision_witness :
    (([(0, 24), (98, 447)] : List (Int × Int)).map Prod.fst).Nodup ∧
    does_gauge_value_collide [(0, 24), (98, 447)] 50 240 = .ok false ∧
    does_gauge_value_collide (gaugeLoopState 432 24 0 [0, 100] ["#FF0000"]).placed 50
      (needleOffset 432 24 50 [0, 100]) = .ok false ∧
    Except.map Prod.fst (gaugeRender 432 24 0 50 [0, 100] ["#FF0000"]) =
      Except.map (fun _ => (gaugeLoopState 432 24 0 [0, 100] ["#FF0000"]).instrs ++
        (if false then [] else [valueLabelInstr 0 50 (needleOffset 432 24 50 [0, 100])]) ++
        [needleInstr 0 (needleOffset 432 24 50 [0, 100])])
        (gaugeRender 432 24 0 50 [0, 100] ["#FF0000"]) := by
  refine ⟨by decide, ?_, by rfl, ?_⟩
  · exact (C6_value_label_collision.1 [(0, 24), (98, 447)] 50 240 0 98 24 447
      (by decide) (by decide) (by decide) (by decide) (by decide) (by decide)
      (by decide) (by decide) (by rfl) (by rfl)).trans (by rfl)
  · exact C6_value_label_collision.2 432 24 0 50 [0, 100] ["#FF0000"] false (by rfl)

/-! # Counterexamples for the corrected claims -/

/-- C2 counterexample: a one-gauge request with marks [50, 50] passes the
capacity check, yet create neither raises TooManySections nor lays the
request out — it aborts with the uncaught ZeroDivisionError of the gauge. -/
theorem C2_counterexample :
    sections_fit cfg480 [[("type", .str "gauge"), ("color", .strList ["#00FF00"]),
      ("value", .int 50), ("range", .intList [50, 50])]] = .ok true ∧
    createModel cfg480 "2021-01-02 00:00:00" "mod2" "T2"
      [[("type", .str "gauge"), ("color", .strList ["#00FF00"]),
        ("value", .int 50), ("range", .intList [50, 50])]] = .error .zeroDivision := by
  constructor <;> rfl

/-- C5 counterexample: marks [50, 10, 30] do NOT yield ascending sorted
boundaries — the rectangles run (24, 456), (456, 24), (24, 240), the second
even right-to-left. -/
theorem C5_counterexample :
    Except.map (fun r => r.1.filterMap rectBoundary)
      (gaugeRender 432 24 0 30 [50, 10, 30] ["c1", "c2", "c3"]) =
      .ok [(24, 456), (456, 24), (24, 240)] ∧
    ¬ List.Chain' (fun p q : Int × Int => p.2 ≤ q.2)
        [((24 : Int), (456 : Int)), (456, 24), (24, 240)] ∧
    ¬ ((456 : Int) ≤ 24) := by
  refine ⟨by rfl, ?_, by decide⟩
  intro h
  have h1 := (List.chain'_cons.mp h).1
  simp at h1

/-- C6 counterexample: marks [0, 98, 100], value 99.  The label of mark 100
is suppressed, so the placed labels are 0 and 98 and the value 99 lies above
every placed label; `values[index + 1]` then raises an uncaught IndexError:
no needle line is drawn at all, the render aborts. -/
theorem C6_counterexample :
    (gaugeLoopState 432 24 0 [0, 98, 100] ["c1", "c2"]).placed = [(0, 24), (98, 447)] ∧
    gaugeRender 432 24 0 99 [0, 98, 100] ["c1", "c2"] = .error .indexError := by
  constructor <;> rfl

/-- C8 counterexample: rendering a well-formed gauge request mutates it —
the gauge section's color list comes back with TEXT_COLOR prepended. -/
theorem C8_counterexample :
    Except.map Prod.snd (createModel cfg480 "2021-01-03 00:00:00" "mod3" "T3"
      [[("type", .str "gauge"), ("color", .strList ["#FF0000"]),
        ("value", .int 50), ("range", .intList [0, 100])]]) =
      .ok [[("type", .str "gauge"), ("color", .strList ["#FFFFFF", "#FF0000"]),
        ("value", .int 50), ("range", .intList [0, 100])]] ∧
    ([("type", JVal.str "gauge"), ("color", JVal.strList ["#FFFFFF", "#FF0000"]),
      ("value", JVal.int 50), ("range", JVal.intList [0, 100])] : RawSection) ≠
      [("type", JVal.str "gauge"), ("color", JVal.strList ["#FF0000"]),
       ("value", JVal.int 50), ("range", JVal.intList [0, 100])] := by
  refine ⟨by rfl, by decide⟩

end PhotoDash
